import Mathlib

/-!
Shallow embedding of `shazam_vinylstreamer.py`: a poll loop that samples an
Icecast stream, recognizes the current track via Shazam, downloads cover art
and republishes stream metadata.  Pure data flow is modelled as total Lean
functions; every fallible external call (HTTP fetch, file write, capture,
recognition) is fed in through an explicit oracle value, with `none` / `false`
standing for the exception paths the Python code catches.
-/

/-! ## Configuration constants (the CONFIG section of the script) -/

def ICECAST_MOUNT : String := "/stream.mp3"

def COVER_PUBLIC_URL : String := "http://localhost:8000/cover.jpg"

def CAPTURE_SECONDS : Nat := 8

def POLL_INTERVAL : Nat := 30

/-! ## JSON values, as `json.loads` would produce them -/

inductive Json where
  | null : Json
  | num (n : Int) : Json
  | str (s : String) : Json
  | bool (b : Bool) : Json
  | arr (xs : List Json) : Json
  | obj (fields : List (String × Json)) : Json

/-- Python `dict.get(k)`: the value of the first field named `k`, if any. -/
def objGet (fields : List (String × Json)) (k : String) : Option Json :=
  (fields.find? (fun p => p.1 == k)).map (fun p => p.2)

/-! ## `get_listener_count` (lines 70-81)

`source.get("listeners", 0)` for one source object; `none` models the paths on
which the Python code raises inside the `try` (non-dict source, non-integer
listener count) and therefore falls into the `except` clause returning 0. -/

def sourceListeners : Json → Option Int
  | .obj fields =>
    match objGet fields "listeners" with
    | none => some 0
    | some (.num n) => some n
    | some _ => none
  | _ => none

/-- `sum(s.get("listeners", 0) for s in source)`: an exception at any element
aborts the whole sum. -/
def sumSources : List Json → Option Int
  | [] => some 0
  | s :: rest =>
    match sourceListeners s, sumSources rest with
    | some n, some m => some (n + m)
    | _, _ => none

/-- The body of the `try` block: extract `icestats.source` and sum listener
counts, `none` when the Python body would raise. -/
def icestatsListeners (data : Json) : Option Int :=
  match data with
  | .obj fields =>
    match (objGet fields "icestats").getD (.obj []) with
    | .obj ifields =>
      match (objGet ifields "source").getD (.obj []) with
      | .arr srcs => sumSources srcs
      | src => sourceListeners src
    | _ => none
  | _ => none

/-- `get_listener_count`: `none` input models an unreachable endpoint, timeout
or malformed JSON (the fetch/parse raised before a value existed); any
exception inside the body also degrades to 0. -/
def get_listener_count (resp : Option Json) : Int :=
  match resp with
  | none => 0
  | some data => (icestatsListeners data).getD 0

/-- A source object carrying a listener count, or lacking the field. -/
def mkSource : Option Int → Json
  | some n => .obj [("listeners", .num n)]
  | none => .obj []

/-- A stats document `{icestats: {source: src}}`. -/
def mkStats (src : Json) : Json :=
  .obj [("icestats", .obj [("source", src)])]

/-! ## `recognize` (lines 171-199): album extraction from metadata sections -/

/-- One entry of a section's `metadata` list: its `title` (the label field)
and `text` keys, either possibly absent. -/
structure MetaEntry where
  mtitle : Option String
  mtext : Option String
deriving DecidableEq

/-- Python `str.lower()`, character-wise (computable form of
`String.toLower`). -/
def lowerStr (s : String) : String := ⟨s.data.map Char.toLower⟩

/-- `meta.get("title", "").lower() == "album"`. -/
def isAlbumEntry (m : MetaEntry) : Bool :=
  lowerStr (m.mtitle.getD "") == "album"

/-- The inner `for meta in section.get("metadata", [])` loop: it assigns from
the first matching entry and `break`s out of the inner loop only. -/
def sectionAlbum (metas : List MetaEntry) : Option String :=
  (metas.find? isAlbumEntry).map (fun m => m.mtext.getD "Unknown")

/-- Lines 180-185: `album` starts as `"Unknown"` and each section whose
metadata contains a matching entry overwrites it. -/
def extractAlbum (sections : List (List MetaEntry)) : String :=
  sections.foldl (fun album metas => (sectionAlbum metas).getD album) "Unknown"

/-- Modelled from the spec claim, for comparison: the first matching metadata
entry across ALL sections in response order, first match winning. -/
def extractAlbumFirstMatch (sections : List (List MetaEntry)) : String :=
  ((sections.flatten.find? isAlbumEntry).map (fun m => m.mtext.getD "Unknown")).getD "Unknown"

/-! ## The Track value built by `recognize` (lines 191-196) -/

/-- A recognized track, compared by value in the main loop. -/
structure Track where
  title : String
  artist : String
  album : String
  cover : String
deriving DecidableEq

/-- The `images` object of a Shazam track response. -/
structure ShazamImages where
  coverarthq : Option String
  coverart : Option String
deriving DecidableEq

/-- The parts of a Shazam `track` object the script reads. -/
structure ShazamTrack where
  ttitle : Option String
  subtitle : Option String
  sections : List (List MetaEntry)
  images : ShazamImages
deriving DecidableEq

/-- The pure core of `recognize`: `none` models both a missing/empty `track`
object and any provider exception; otherwise the four fields are extracted
(`cover` uses Python `or`-chaining, so an empty `coverarthq` falls back). -/
def recognize_result (resp : Option ShazamTrack) : Option Track :=
  match resp with
  | none => none
  | some tr =>
    let hq := tr.images.coverarthq.getD ""
    let ca := tr.images.coverart.getD ""
    some
      { title := tr.ttitle.getD "Unknown"
        artist := tr.subtitle.getD "Unknown"
        album := extractAlbum tr.sections
        cover := if hq ≠ "" then hq else ca }

/-! ## `download_cover` (lines 113-134)

Filesystem state is the pair of the `.tmp` path and the public cover path;
bytes are modelled as `List Nat`.  The oracle says whether each fallible
step (HTTP fetch, tmp-file write+flush+fsync, atomic `os.replace`) succeeds;
`false`/`none` means that step raises. -/

structure CoverFS where
  tmp : Option (List Nat)
  pub : Option (List Nat)
deriving DecidableEq

structure CoverOracle where
  fetch : Option (List Nat)
  writeOk : Bool
  replaceOk : Bool
deriving DecidableEq

/-- `download_cover`: returns the success flag and the resulting filesystem
state.  The `except` handler unlinks the tmp file when it exists; the early
`if not url: return False` skips both the attempt and the cleanup. -/
def download_cover (url : String) (o : CoverOracle) (fs : CoverFS) :
    Bool × CoverFS :=
  if url = "" then (false, fs)
  else
    match o.fetch with
    | none => (false, { fs with tmp := none })
    | some data =>
      if o.writeOk then
        if o.replaceOk then (true, { tmp := none, pub := some data })
        else (false, { fs with tmp := none })
      else (false, { fs with tmp := none })

/-! ## `update_icecast_metadata` (lines 87-107)

Modelled by the request parameters it constructs; the HTTP send itself is
fire-and-forget and carries no data back into the program. -/

structure MetaParams where
  mount : String
  mode : String
  song : String
  url : Option String
deriving DecidableEq

/-- The query parameters built on lines 89-96:
`song = f"{artist} - {title}" if title else artist`, and `url` only when a
cover URL is given. -/
def update_icecast_metadata (artist title cover_url : String) : MetaParams :=
  { mount := ICECAST_MOUNT
    mode := "updinfo"
    song := if title ≠ "" then artist ++ " - " ++ title else artist
    url := if cover_url ≠ "" then some cover_url else none }

/-! ## Observable events of the orchestrator

Each iteration of the loop is recorded as the ordered list of externally
visible actions it performs. -/

inductive Event where
  | publish (artist title coverUrl : String) : Event
  | coverDownload (url : String) (ok : Bool) : Event
  | coverCleared : Event
  | sleep (seconds : Nat) : Event
  | capture (ok : Bool) : Event
  | recognizeCall (result : Option Track) : Event
deriving DecidableEq

def Event.isPublish : Event → Bool
  | .publish _ _ _ => true
  | _ => false

def Event.isCoverDownload : Event → Bool
  | .coverDownload _ _ => true
  | _ => false

def Event.isCapture : Event → Bool
  | .capture _ => true
  | _ => false

/-! ## `handle_track` (lines 218-223) -/

/-- `handle_track`: download the cover only when the track has one
(short-circuit `and`), then push metadata exactly once, attaching the
configured public cover URL on download success and no URL otherwise. -/
def handle_track (t : Track) (o : CoverOracle) (fs : CoverFS) :
    CoverFS × List Event :=
  if t.cover ≠ "" then
    let r := download_cover t.cover o fs
    (r.2, [.coverDownload t.cover r.1,
           .publish t.artist t.title (if r.1 then COVER_PUBLIC_URL else "")])
  else
    (fs, [.publish t.artist t.title ""])

/-! ## The main loop (lines 229-300)

One iteration of the `while True` body is `loop_step`; its per-iteration
inputs — the fetched listener count, the capture/recognition outcomes of the
activation-edge pass and of the regular pass, and the cover-download
oracles — are gathered in `Oracle`. -/

/-- The loop's mutable state: `last_track` and `prev_listeners` from lines
232-233, plus the cover-art filesystem the iteration may rewrite. -/
structure SysState where
  last_track : Option Track
  prev_listeners : Int
  fs : CoverFS
deriving DecidableEq

structure Oracle where
  listeners : Int
  imCaptureOk : Bool
  imRecognize : Option Track
  imCover : CoverOracle
  captureOk : Bool
  recognize : Option Track
  cover : CoverOracle
deriving DecidableEq

/-- The shared capture→recognize→publish block (lines 254-264 and 277-294):
on a successful capture, recognize; a new non-empty result is published via
`handle_track` and stored; an unchanged result does nothing; an empty result
resets `last_track`, clears the cover file and publishes "Unknown". -/
def capture_recognize (capOk : Bool) (res : Option Track) (co : CoverOracle)
    (last : Option Track) (fs : CoverFS) :
    (Option Track × CoverFS) × List Event :=
  match capOk, res with
  | false, _ => ((last, fs), [.capture false])
  | true, some t =>
    if some t ≠ last then
      let r := handle_track t co fs
      ((some t, r.1), [.capture true, .recognizeCall (some t)] ++ r.2)
    else
      ((last, fs), [.capture true, .recognizeCall (some t)])
  | true, none =>
    ((none, { fs with pub := none }),
     [.capture true, .recognizeCall none, .coverCleared,
      .publish "Unknown" "" ""])

/-- One iteration of the `while True` loop: the idle branch (lines 238-244),
the activation-edge branch (lines 247-267), `prev_listeners = listeners`
(line 269) and the regular poll (lines 272-300). -/
def loop_step (s : SysState) (o : Oracle) : SysState × List Event :=
  if o.listeners < 1 then
    ({ s with prev_listeners := 0 },
     (if 1 ≤ s.prev_listeners then [Event.publish "Paused" "" ""] else [])
       ++ [.sleep 15])
  else
    let im :=
      if s.prev_listeners = 0 ∧ 1 ≤ o.listeners then
        let r := capture_recognize o.imCaptureOk o.imRecognize o.imCover
          s.last_track s.fs
        (r.1, [Event.publish "Detecting..." "" "", .sleep 5] ++ r.2)
      else
        ((s.last_track, s.fs), [])
    let r2 := capture_recognize o.captureOk o.recognize o.cover im.1.1 im.1.2
    ({ last_track := r2.1.1, prev_listeners := o.listeners, fs := r2.1.2 },
     im.2 ++ r2.2 ++ [.sleep POLL_INTERVAL])

/-- The loop run over a finite prefix of iterations. -/
def loop_run (s : SysState) : List Oracle → SysState × List Event
  | [] => (s, [])
  | o :: os =>
    let r := loop_step s o
    let rr := loop_run r.1 os
    (rr.1, r.2 ++ rr.2)

/-- The state at process start (lines 232-233), over an arbitrary initial
cover filesystem. -/
def initState (fs : CoverFS) : SysState := ⟨none, 0, fs⟩

/-- The activation-edge pass of an iteration (lines 247-267). -/
def imPass (s : SysState) (o : Oracle) : (Option Track × CoverFS) × List Event :=
  capture_recognize o.imCaptureOk o.imRecognize o.imCover s.last_track s.fs

/-- The regular poll of an iteration (lines 272-300). -/
def regPass (o : Oracle) (last : Option Track) (fs : CoverFS) :
    (Option Track × CoverFS) × List Event :=
  capture_recognize o.captureOk o.recognize o.cover last fs

/-! ## Concrete instances used to witness the claim theorems -/

def sampleTrack : Track := ⟨"Echoes", "Pink Floyd", "Meddle", "http://x/cover.jpg"⟩

def sampleFS : CoverFS := ⟨none, none⟩

def quietCover : CoverOracle := ⟨none, false, false⟩

def steadyState : SysState := ⟨some sampleTrack, 1, sampleFS⟩

def steadyOracleSame : Oracle :=
  ⟨1, false, none, quietCover, true, some sampleTrack, quietCover⟩

def steadyOracleNone : Oracle :=
  ⟨1, false, none, quietCover, true, none, quietCover⟩

def idleOracle : Oracle := ⟨0, false, none, quietCover, false, none, quietCover⟩

def edgeState : SysState := ⟨some sampleTrack, 0, sampleFS⟩

def edgeOracle : Oracle := ⟨2, true, none, quietCover, true, none, quietCover⟩

theorem sourceListeners_mkSource (c : Option Int) :
    sourceListeners (mkSource c) = some (c.getD 0) := by
  cases c <;> rfl

theorem sumSources_mkSource (cs : List (Option Int)) :
    sumSources (cs.map mkSource) = some ((cs.map (fun c => c.getD 0)).sum) := by
  induction cs with
  | nil => rfl
  | cons c cs ih =>
    simp [sumSources, sourceListeners_mkSource, ih]

/-- C2: for a list of sources the listener count is the sum of the present
per-source counts (absent counts default to 0); for a single source object it
is that source's count, 0 when the `listeners` field is missing; and a failed
or malformed fetch (`none`) yields 0.  The function is total, so no input
makes it raise. -/
theorem C2_listener_count_shapes :
    (∀ cs : List (Option Int),
      get_listener_count (some (mkStats (.arr (cs.map mkSource)))) =
        (cs.map (fun c => c.getD 0)).sum)
    ∧ (∀ n : Int, get_listener_count (some (mkStats (mkSource (some n)))) = n)
    ∧ get_listener_count (some (mkStats (mkSource none))) = 0
    ∧ get_listener_count none = 0 := by
  refine ⟨?_, ?_, rfl, rfl⟩
  · intro cs
    simp [get_listener_count, icestatsListeners, mkStats, objGet,
      sumSources_mkSource]
  · intro n
    rfl

/-- C1 counterexample: with an `album` entry in two sections the code keeps
the LAST section's entry ("B"), while the claim's first-match-across-sections
rule picks "A" — the inner `break` leaves the outer section loop running. -/
theorem C1_counterexample :
    extractAlbum [[⟨some "album", some "A"⟩], [⟨some "album", some "B"⟩]] = "B"
    ∧ extractAlbumFirstMatch
        [[⟨some "album", some "A"⟩], [⟨some "album", some "B"⟩]] = "A"
    ∧ extractAlbum [[⟨some "album", some "A"⟩], [⟨some "album", some "B"⟩]]
        ≠ extractAlbumFirstMatch
            [[⟨some "album", some "A"⟩], [⟨some "album", some "B"⟩]] := by
  refine ⟨by decide, by decide, by decide⟩

theorem foldl_sectionAlbum (l : List (List MetaEntry)) (acc : String) :
    l.foldl (fun album metas => (sectionAlbum metas).getD album) acc
      = ((l.filterMap sectionAlbum).getLast?).getD acc := by
  induction l generalizing acc with
  | nil => rfl
  | cons s l ih =>
    simp only [List.foldl_cons, List.filterMap_cons]
    cases h : sectionAlbum s with
    | none => simp [ih]
    | some v =>
      rw [ih]
      cases hl : l.filterMap sectionAlbum with
      | nil => simp [hl]
      | cons x xs =>
        simp only [hl, List.getLast?_cons_cons]
        cases hy : (x :: xs).getLast? with
        | none => simp at hy
        | some y => rfl

/-- C1 amended: the extracted album is the text of the first matching
metadata entry WITHIN each section, with the LAST section containing a match
winning overall (later sections overwrite earlier ones), and "Unknown" when
no section contains a matching entry. -/
theorem C1_album_last_matching_section (sections : List (List MetaEntry)) :
    extractAlbum sections
      = ((sections.filterMap sectionAlbum).getLast?).getD "Unknown" :=
  foldl_sectionAlbum sections "Unknown"

/-- C7 counterexample: with an empty URL and a stale temp file on disk the
call returns `false` but does NOT remove the existing temp file, contrary to
the claim that every failing call removes the temp file if it exists. -/
theorem C7_counterexample :
    (download_cover "" ⟨some [2], true, true⟩ ⟨some [0], some [1]⟩).1 = false
    ∧ (download_cover "" ⟨some [2], true, true⟩ ⟨some [0], some [1]⟩).2.tmp
        = some [0] := by
  constructor <;> rfl

/-- C7 amended: for every NON-EMPTY url the call either succeeds — the
fetched bytes become the published image, the temp file is gone and `true` is
returned — or fails with `false`, the temp file removed and the previously
published image untouched; for an empty url it returns `false` immediately
and leaves the filesystem (including any stale temp file) unchanged. -/
theorem C7_download_cover_outcomes (url : String) (o : CoverOracle)
    (fs : CoverFS) :
    (url ≠ "" →
      ((download_cover url o fs).1 = true →
        (download_cover url o fs).2 = ⟨none, o.fetch⟩ ∧ o.fetch ≠ none)
      ∧ ((download_cover url o fs).1 = false →
        (download_cover url o fs).2 = ⟨none, fs.pub⟩))
    ∧ (url = "" →
      (download_cover url o fs).1 = false ∧ (download_cover url o fs).2 = fs) := by
  constructor
  · intro hurl
    unfold download_cover
    rw [if_neg hurl]
    cases o with
    | mk fetch writeOk replaceOk =>
      cases fetch with
      | none => simp
      | some data => cases writeOk <;> cases replaceOk <;> simp
  · intro hurl
    unfold download_cover
    rw [if_pos hurl]
    exact ⟨rfl, rfl⟩

/-- A witness for C7: a concrete successful download publishes the fetched
bytes and clears the temp path. -/
theorem C7_download_cover_outcomes_witness :
    (download_cover "http://x/cover.jpg" ⟨some [7, 7], true, true⟩
        ⟨none, some [1]⟩).2 = ⟨none, some [7, 7]⟩
    ∧ (some [7, 7] : Option (List Nat)) ≠ none :=
  ⟨((C7_download_cover_outcomes "http://x/cover.jpg" ⟨some [7, 7], true, true⟩
      ⟨none, some [1]⟩).1 (by decide)).1 (by decide) |>.1,
   ((C7_download_cover_outcomes "http://x/cover.jpg" ⟨some [7, 7], true, true⟩
      ⟨none, some [1]⟩).1 (by decide)).1 (by decide) |>.2⟩

/-- C8 counterexample: with an empty artist and nonempty title the code sends
`" - Echoes"`, not just the artist (`""`) as the claim's "otherwise" branch
requires — the code branches on the title alone. -/
theorem C8_counterexample :
    (update_icecast_metadata "" "Echoes" "").song = " - Echoes"
    ∧ (update_icecast_metadata "" "Echoes" "").song ≠ "" := by
  constructor <;> decide

/-- C8 amended: the song string is `"artist - title"` whenever the title is
nonempty (even when the artist is empty), and just the artist when the title
is empty. -/
theorem C8_song_format (artist title cover_url : String) :
    (title ≠ "" →
      (update_icecast_metadata artist title cover_url).song
        = artist ++ " - " ++ title)
    ∧ (title = "" →
      (update_icecast_metadata artist title cover_url).song = artist) := by
  constructor <;> intro h <;> simp [update_icecast_metadata, h]

/-- A witness for C8: both fields present gives `"Pink Floyd - Echoes"`. -/
theorem C8_song_format_witness :
    (update_icecast_metadata "Pink Floyd" "Echoes" COVER_PUBLIC_URL).song
      = "Pink Floyd - Echoes" :=
  (C8_song_format "Pink Floyd" "Echoes" COVER_PUBLIC_URL).1 (by decide)

theorem handle_track_capture_free (t : Track) (o : CoverOracle) (fs : CoverFS) :
    (handle_track t o fs).2.countP Event.isCapture = 0 := by
  unfold handle_track
  split <;> simp [List.countP_cons, Event.isCapture]

theorem handle_track_publishes (t : Track) (o : CoverOracle) (fs : CoverFS) :
    ∃ u, Event.publish t.artist t.title u ∈ (handle_track t o fs).2 := by
  unfold handle_track
  split
  · exact ⟨if (download_cover t.cover o fs).1 then COVER_PUBLIC_URL else "",
      by simp⟩
  · exact ⟨"", by simp⟩

/-- C9: `handle_track` pushes the metadata update exactly once whatever the
cover outcome; an absent cover or a failed download still publishes, with an
empty cover URL; a successful download attaches the configured public URL —
every published URL is either empty or `COVER_PUBLIC_URL`, never the
provider's. -/
theorem C9_handle_track_single_update (t : Track) (o : CoverOracle)
    (fs : CoverFS) :
    (handle_track t o fs).2.countP Event.isPublish = 1
    ∧ (t.cover = "" →
        Event.publish t.artist t.title "" ∈ (handle_track t o fs).2)
    ∧ (t.cover ≠ "" → (download_cover t.cover o fs).1 = false →
        Event.publish t.artist t.title "" ∈ (handle_track t o fs).2)
    ∧ (t.cover ≠ "" → (download_cover t.cover o fs).1 = true →
        Event.publish t.artist t.title COVER_PUBLIC_URL ∈ (handle_track t o fs).2)
    ∧ (∀ a ti u, Event.publish a ti u ∈ (handle_track t o fs).2 →
        u = "" ∨ u = COVER_PUBLIC_URL) := by
  refine ⟨?_, ?_, ?_, ?_, ?_⟩
  · unfold handle_track
    split <;> simp [List.countP_cons, Event.isPublish]
  · intro h
    unfold handle_track
    rw [if_neg (by simpa using h)]
    simp
  · intro h hdl
    unfold handle_track
    rw [if_pos h]
    simp [hdl]
  · intro h hdl
    unfold handle_track
    rw [if_pos h]
    simp [hdl]
  · intro a ti u hmem
    unfold handle_track at hmem
    split at hmem
    · simp at hmem
      rcases hmem with ⟨_, _, hu⟩
      split at hu
      · exact Or.inr hu
      · exact Or.inl hu
    · simp at hmem
      exact Or.inl hmem.2.2

/-- A witness for C9: a track with a cover URL whose download succeeds
publishes the public cover URL. -/
theorem C9_handle_track_single_update_witness :
    Event.publish "Pink Floyd" "Echoes" COVER_PUBLIC_URL ∈
      (handle_track ⟨"Echoes", "Pink Floyd", "Meddle", "http://x/cover.jpg"⟩
        ⟨some [7], true, true⟩ ⟨none, none⟩).2 :=
  (C9_handle_track_single_update
    ⟨"Echoes", "Pink Floyd", "Meddle", "http://x/cover.jpg"⟩
    ⟨some [7], true, true⟩ ⟨none, none⟩).2.2.2.1 (by decide) (by decide)

theorem capture_recognize_last (capOk : Bool) (res : Option Track)
    (co : CoverOracle) (last : Option Track) (fs : CoverFS) :
    (capture_recognize capOk res co last fs).1.1 = last
    ∨ (capture_recognize capOk res co last fs).1.1 = res := by
  unfold capture_recognize
  cases capOk with
  | false => exact Or.inl rfl
  | true =>
    cases res with
    | none => exact Or.inr rfl
    | some t =>
      dsimp only
      by_cases h : some t = last
      · subst h
        simp
      · simp [h]

theorem capture_recognize_capture_count (capOk : Bool) (res : Option Track)
    (co : CoverOracle) (last : Option Track) (fs : CoverFS) :
    (capture_recognize capOk res co last fs).2.countP Event.isCapture = 1 := by
  unfold capture_recognize
  cases capOk with
  | false => rfl
  | true =>
    cases res with
    | none => rfl
    | some t =>
      dsimp only
      by_cases h : some t = last
      · subst h
        simp [List.countP_cons, Event.isCapture]
      · simp [h, List.countP_cons, List.countP_append, Event.isCapture,
          handle_track_capture_free]

theorem loop_step_idle_edge (s : SysState) (o : Oracle)
    (hl : o.listeners < 1) (hp : 1 ≤ s.prev_listeners) :
    loop_step s o =
      ({ s with prev_listeners := 0 },
       [Event.publish "Paused" "" "", Event.sleep 15]) := by
  unfold loop_step
  rw [if_pos hl, if_pos hp]
  rfl

theorem loop_step_idle_stay (s : SysState) (o : Oracle)
    (hl : o.listeners < 1) (hp : ¬ 1 ≤ s.prev_listeners) :
    loop_step s o = ({ s with prev_listeners := 0 }, [Event.sleep 15]) := by
  unfold loop_step
  rw [if_pos hl, if_neg hp]
  rfl

theorem loop_step_steady (s : SysState) (o : Oracle)
    (hl : ¬ o.listeners < 1) (hp : s.prev_listeners ≠ 0) :
    loop_step s o =
      ({ last_track := (regPass o s.last_track s.fs).1.1,
         prev_listeners := o.listeners,
         fs := (regPass o s.last_track s.fs).1.2 },
       (regPass o s.last_track s.fs).2 ++ [Event.sleep POLL_INTERVAL]) := by
  unfold loop_step regPass
  rw [if_neg hl]
  dsimp only
  rw [if_neg (fun h => hp h.1)]
  rfl

theorem loop_step_activation (s : SysState) (o : Oracle)
    (hl : ¬ o.listeners < 1) (hp : s.prev_listeners = 0) :
    loop_step s o =
      ({ last_track := (regPass o (imPass s o).1.1 (imPass s o).1.2).1.1,
         prev_listeners := o.listeners,
         fs := (regPass o (imPass s o).1.1 (imPass s o).1.2).1.2 },
       ([Event.publish "Detecting..." "" "", Event.sleep 5] ++ (imPass s o).2)
         ++ (regPass o (imPass s o).1.1 (imPass s o).1.2).2
         ++ [Event.sleep POLL_INTERVAL]) := by
  unfold loop_step regPass imPass
  rw [if_neg hl]
  dsimp only
  rw [if_pos ⟨hp, by omega⟩]

theorem capture_recognize_fail (res : Option Track) (co : CoverOracle)
    (last : Option Track) (fs : CoverFS) :
    capture_recognize false res co last fs = ((last, fs), [.capture false]) :=
  rfl

theorem capture_recognize_none (co : CoverOracle) (last : Option Track)
    (fs : CoverFS) :
    capture_recognize true none co last fs =
      ((none, { fs with pub := none }),
       [.capture true, .recognizeCall none, .coverCleared,
        .publish "Unknown" "" ""]) :=
  rfl

theorem capture_recognize_same (t : Track) (co : CoverOracle) (fs : CoverFS) :
    capture_recognize true (some t) co (some t) fs =
      ((some t, fs), [.capture true, .recognizeCall (some t)]) := by
  unfold capture_recognize
  dsimp only
  rw [if_neg (by simp)]

theorem capture_recognize_new (t : Track) (co : CoverOracle)
    (last : Option Track) (fs : CoverFS) (h : some t ≠ last) :
    capture_recognize true (some t) co last fs =
      ((some t, (handle_track t co fs).1),
       [.capture true, .recognizeCall (some t)] ++ (handle_track t co fs).2) := by
  unfold capture_recognize
  dsimp only
  rw [if_pos h]

theorem capture_recognize_head (capOk : Bool) (res : Option Track)
    (co : CoverOracle) (last : Option Track) (fs : CoverFS) :
    ∃ rest, (capture_recognize capOk res co last fs).2
      = Event.capture capOk :: rest := by
  unfold capture_recognize
  cases capOk with
  | false => exact ⟨_, rfl⟩
  | true =>
    cases res with
    | none => exact ⟨_, rfl⟩
    | some t =>
      dsimp only
      by_cases h : some t = last
      · rw [if_neg (by simp [h])]
        exact ⟨_, rfl⟩
      · rw [if_pos (by simp [h])]
        exact ⟨_, rfl⟩

/-- C3: Track equality is field-wise value equality, and a steady-state
iteration whose recognition returns exactly the stored `last_track` performs
no publish and no cover download — its whole event trace is the capture, the
recognition call and the poll-interval sleep. -/
theorem C3_track_equality_no_republish :
    (∀ t1 t2 : Track, t1 = t2 ↔
      (t1.title = t2.title ∧ t1.artist = t2.artist ∧ t1.album = t2.album
        ∧ t1.cover = t2.cover))
    ∧ (∀ (s : SysState) (o : Oracle) (t : Track),
        1 ≤ s.prev_listeners → 1 ≤ o.listeners → o.captureOk = true →
        o.recognize = some t → s.last_track = some t →
        (loop_step s o).2 =
          [Event.capture true, Event.recognizeCall (some t),
           Event.sleep POLL_INTERVAL]
        ∧ (loop_step s o).2.countP Event.isPublish = 0
        ∧ (loop_step s o).2.countP Event.isCoverDownload = 0
        ∧ (loop_step s o).1.last_track = some t) := by
  constructor
  · intro t1 t2
    constructor
    · intro h
      subst h
      exact ⟨rfl, rfl, rfl, rfl⟩
    · intro h
      cases t1
      cases t2
      simp_all
  · intro s o t hp hl hc hr hlast
    rw [loop_step_steady s o (by omega) (by omega)]
    unfold regPass
    rw [hc, hr, hlast, capture_recognize_same]
    exact ⟨rfl, rfl, rfl, rfl⟩

/-- C4: an empty recognition in an active steady-state cycle clears the
cover file, publishes the "Unknown" placeholder and resets `last_track` to
`none`; from a reset state any later non-empty result — including one equal
to a track seen before the gap — is published again and stored; the
activation-edge pass behaves the same way on no-match. -/
theorem C4_no_match_clears_and_resets :
    (∀ (s : SysState) (o : Oracle),
      1 ≤ s.prev_listeners → 1 ≤ o.listeners → o.captureOk = true →
      o.recognize = none →
      (loop_step s o).1.last_track = none
      ∧ (loop_step s o).1.fs.pub = none
      ∧ (loop_step s o).2 =
          [Event.capture true, Event.recognizeCall none, Event.coverCleared,
           Event.publish "Unknown" "" "", Event.sleep POLL_INTERVAL])
    ∧ (∀ (s : SysState) (o : Oracle) (t : Track),
        s.last_track = none → 1 ≤ s.prev_listeners → 1 ≤ o.listeners →
        o.captureOk = true → o.recognize = some t →
        (loop_step s o).1.last_track = some t
        ∧ ∃ u, Event.publish t.artist t.title u ∈ (loop_step s o).2)
    ∧ (∀ (s : SysState) (o : Oracle),
        s.prev_listeners = 0 → 1 ≤ o.listeners → o.imCaptureOk = true →
        o.imRecognize = none →
        Event.coverCleared ∈ (loop_step s o).2
        ∧ Event.publish "Unknown" "" "" ∈ (loop_step s o).2) := by
  refine ⟨?_, ?_, ?_⟩
  · intro s o hp hl hc hr
    rw [loop_step_steady s o (by omega) (by omega)]
    unfold regPass
    rw [hc, hr, capture_recognize_none]
    exact ⟨rfl, rfl, rfl⟩
  · intro s o t hlast hp hl hc hr
    rw [loop_step_steady s o (by omega) (by omega)]
    unfold regPass
    rw [hc, hr, hlast, capture_recognize_new t o.cover none s.fs (by simp)]
    refine ⟨rfl, ?_⟩
    obtain ⟨u, hu⟩ := handle_track_publishes t o.cover s.fs
    exact ⟨u, by simp [hu]⟩
  · intro s o hp hl hic hir
    rw [loop_step_activation s o (by omega) hp]
    unfold imPass
    rw [hic, hir, capture_recognize_none]
    constructor <;> simp

/-- C5: the transition from ≥1 listeners to 0 publishes the "Paused"
placeholder (artist "Paused", empty title, no cover) exactly once — the
iteration's trace is that single publish plus the idle sleep — and while the
count stays below 1 the following idle iterations publish nothing at all. -/
theorem C5_paused_published_once :
    (∀ (s : SysState) (o : Oracle), 1 ≤ s.prev_listeners → o.listeners < 1 →
      (loop_step s o).2 = [Event.publish "Paused" "" "", Event.sleep 15]
      ∧ (loop_step s o).1.prev_listeners = 0)
    ∧ (∀ (s : SysState) (o : Oracle), s.prev_listeners < 1 → o.listeners < 1 →
      (loop_step s o).2 = [Event.sleep 15]
      ∧ (loop_step s o).1.prev_listeners = 0) := by
  constructor
  · intro s o hp hl
    rw [loop_step_idle_edge s o hl hp]
    exact ⟨rfl, rfl⟩
  · intro s o hp hl
    rw [loop_step_idle_stay s o hl (by omega)]
    exact ⟨rfl, rfl⟩

/-- C6: on the activation edge the iteration's first three events are the
"Detecting..." publish, the 5-second settle sleep and the immediate capture
— so the placeholder precedes any recognition result and the settle delay
precedes any capture — and the iteration performs exactly two captures: the
immediate pass falls through into the regular cycle of the same iteration. -/
theorem C6_activation_sequence (s : SysState) (o : Oracle)
    (hp : s.prev_listeners = 0) (hl : 1 ≤ o.listeners) :
    (loop_step s o).2.take 3 =
      [Event.publish "Detecting..." "" "", Event.sleep 5,
       Event.capture o.imCaptureOk]
    ∧ (loop_step s o).2.countP Event.isCapture = 2 := by
  rw [loop_step_activation s o (by omega) hp]
  constructor
  · obtain ⟨rest, hr⟩ := capture_recognize_head o.imCaptureOk o.imRecognize
      o.imCover s.last_track s.fs
    unfold imPass
    rw [hr]
    rfl
  · unfold imPass regPass
    simp [List.countP_append, List.countP_cons, Event.isCapture,
      capture_recognize_capture_count]

theorem loop_step_last_cases (s : SysState) (o : Oracle) :
    (loop_step s o).1.last_track = s.last_track
    ∨ (loop_step s o).1.last_track = o.imRecognize
    ∨ (loop_step s o).1.last_track = o.recognize := by
  by_cases hl : o.listeners < 1
  · by_cases hp : 1 ≤ s.prev_listeners
    · rw [loop_step_idle_edge s o hl hp]
      exact Or.inl rfl
    · rw [loop_step_idle_stay s o hl hp]
      exact Or.inl rfl
  · by_cases hp : s.prev_listeners = 0
    · rw [loop_step_activation s o hl hp]
      dsimp only
      unfold regPass imPass
      rcases capture_recognize_last o.captureOk o.recognize o.cover
          (capture_recognize o.imCaptureOk o.imRecognize o.imCover
            s.last_track s.fs).1.1
          (capture_recognize o.imCaptureOk o.imRecognize o.imCover
            s.last_track s.fs).1.2 with h2 | h2
      · rcases capture_recognize_last o.imCaptureOk o.imRecognize o.imCover
            s.last_track s.fs with h1 | h1
        · exact Or.inl (h2.trans h1)
        · exact Or.inr (Or.inl (h2.trans h1))
      · exact Or.inr (Or.inr h2)
    · rw [loop_step_steady s o hl hp]
      dsimp only
      unfold regPass
      rcases capture_recognize_last o.captureOk o.recognize o.cover
          s.last_track s.fs with h2 | h2
      · exact Or.inl h2
      · exact Or.inr (Or.inr h2)

theorem loop_run_last_cases (os : List Oracle) (s : SysState) :
    (loop_run s os).1.last_track = s.last_track
    ∨ ∃ o ∈ os, (loop_run s os).1.last_track = o.imRecognize
        ∨ (loop_run s os).1.last_track = o.recognize := by
  induction os generalizing s with
  | nil => exact Or.inl rfl
  | cons o os ih =>
    have heq : (loop_run s (o :: os)).1 = (loop_run (loop_step s o).1 os).1 :=
      rfl
    rw [heq]
    rcases ih (loop_step s o).1 with h | ⟨o2, ho2, h2⟩
    · rw [h]
      rcases loop_step_last_cases s o with h1 | h1 | h1
      · exact Or.inl h1
      · exact Or.inr ⟨o, List.mem_cons_self o os, Or.inl h1⟩
      · exact Or.inr ⟨o, List.mem_cons_self o os, Or.inr h1⟩
    · exact Or.inr ⟨o2, List.mem_cons_of_mem o ho2, h2⟩

/-- C10: over any run from process start, `last_track` is `none` or a value
some iteration's recognition returned; an idle ("Paused") iteration and an
activation iteration with no successful capture (which still publishes
"Detecting...") leave `last_track` untouched; and a recognized track that
differs from `last_track` is always published and stored — placeholders
never occupy `last_track`, so they cannot suppress a later real publish. -/
theorem C10_last_track_only_recognitions :
    (∀ (fs : CoverFS) (os : List Oracle),
      (loop_run (initState fs) os).1.last_track = none
      ∨ ∃ o ∈ os, (loop_run (initState fs) os).1.last_track = o.imRecognize
          ∨ (loop_run (initState fs) os).1.last_track = o.recognize)
    ∧ (∀ (s : SysState) (o : Oracle), o.listeners < 1 →
        (loop_step s o).1.last_track = s.last_track)
    ∧ (∀ (s : SysState) (o : Oracle),
        s.prev_listeners = 0 → 1 ≤ o.listeners → o.imCaptureOk = false →
        o.captureOk = false →
        (loop_step s o).1.last_track = s.last_track
        ∧ Event.publish "Detecting..." "" "" ∈ (loop_step s o).2)
    ∧ (∀ (s : SysState) (o : Oracle) (t : Track),
        1 ≤ s.prev_listeners → 1 ≤ o.listeners → o.captureOk = true →
        o.recognize = some t → s.last_track ≠ some t →
        (loop_step s o).1.last_track = some t
        ∧ ∃ u, Event.publish t.artist t.title u ∈ (loop_step s o).2) := by
  refine ⟨?_, ?_, ?_, ?_⟩
  · intro fs os
    rcases loop_run_last_cases os (initState fs) with h | h
    · exact Or.inl h
    · exact Or.inr h
  · intro s o hl
    by_cases hp : 1 ≤ s.prev_listeners
    · rw [loop_step_idle_edge s o hl hp]
    · rw [loop_step_idle_stay s o hl hp]
  · intro s o hp hl hic hc
    rw [loop_step_activation s o (by omega) hp]
    unfold imPass regPass
    rw [hic, hc, capture_recognize_fail, capture_recognize_fail]
    constructor
    · rfl
    · simp
  · intro s o t hp hl hc hr hne
    rw [loop_step_steady s o (by omega) (by omega)]
    unfold regPass
    rw [hc, hr, capture_recognize_new t o.cover s.last_track s.fs
      (fun h => hne h.symm)]
    refine ⟨rfl, ?_⟩
    obtain ⟨u, hu⟩ := handle_track_publishes t o.cover s.fs
    exact ⟨u, by simp [hu]⟩

/-- A witness for C3: recognizing the stored track again produces only
capture, recognition and sleep events. -/
theorem C3_track_equality_no_republish_witness :
    (loop_step steadyState steadyOracleSame).2 =
      [Event.capture true, Event.recognizeCall (some sampleTrack),
       Event.sleep POLL_INTERVAL] :=
  (C3_track_equality_no_republish.2 steadyState steadyOracleSame sampleTrack
    (by decide) (by decide) rfl rfl rfl).1

/-- A witness for C4: an empty recognition resets `last_track` and removes
the published cover. -/
theorem C4_no_match_clears_and_resets_witness :
    (loop_step steadyState steadyOracleNone).1.last_track = none
    ∧ (loop_step steadyState steadyOracleNone).1.fs.pub = none :=
  ⟨(C4_no_match_clears_and_resets.1 steadyState steadyOracleNone
      (by decide) (by decide) rfl rfl).1,
   (C4_no_match_clears_and_resets.1 steadyState steadyOracleNone
      (by decide) (by decide) rfl rfl).2.1⟩

/-- A witness for C5: the 1→0 listener transition publishes exactly the
"Paused" placeholder. -/
theorem C5_paused_published_once_witness :
    (loop_step steadyState idleOracle).2
      = [Event.publish "Paused" "" "", Event.sleep 15] :=
  (C5_paused_published_once.1 steadyState idleOracle (by decide) (by decide)).1

/-- A witness for C6: a concrete activation iteration starts with
"Detecting...", the settle sleep and the immediate capture, and captures
twice. -/
theorem C6_activation_sequence_witness :
    (loop_step edgeState edgeOracle).2.take 3 =
      [Event.publish "Detecting..." "" "", Event.sleep 5, Event.capture true]
    ∧ (loop_step edgeState edgeOracle).2.countP Event.isCapture = 2 :=
  C6_activation_sequence edgeState edgeOracle rfl (by decide)

/-- A witness for C10: an idle iteration publishes "Paused" without touching
the stored track. -/
theorem C10_last_track_only_recognitions_witness :
    (loop_step steadyState idleOracle).1.last_track = some sampleTrack :=
  C10_last_track_only_recognitions.2.1 steadyState idleOracle (by decide)
